import Mathlib

/-!
Verification development for the huginn-net-profiler repository.

The development shallowly embeds two subsystems of the repository:

* the JA4 / User-Agent consistency engine of `src/huginn-core/src/ja4.rs`
  (`JA4Database`, `from_json`, `validate_consistency`, `find_exact_match`,
  `analyze_partial_matches`, `extract_application_from_ua`);
* the profile assembler of `src/profiler/profile-assembler/src/main.rs`
  (the seven ingest handlers, the `DashMap` profile store, and
  `enforce_profile_limit`).

Modelling conventions:

* Rust `HashMap` / `DashMap` values are modelled as association lists
  (`List (String × α)`) with a lookup function `alookup` that returns the
  value of the first (and, under the `NodupKeys` invariant maintained by
  every operation, only) binding of a key.
* Rust `u16`/`u32`/`u64`/`usize` fields are modelled as `Nat`; none of the
  embedded operations performs arithmetic on them, so overflow is not in
  play.  Rust `f32`/`f64` fields that are only stored and compared against
  exact decimal literals (`quality`, `freq`, `confidence`) are modelled as
  `ℚ`; the confidence literals 0.95, 0.8, 0.7, 0.3, 0.2, 0.1 are exactly
  representable.
* `serde_json` parsing is abstracted: `JA4Database.from_json` takes the
  already-parsed `List JA4Entry`, which is what the rest of the Rust
  function consumes; the ingest handlers take the already-decoded payload
  structs.
* The wall clock (`Utc::now().to_rfc3339()`) is an explicit `now : String`
  argument to the ingest handlers.
-/

/-! ### Association-list model of the string-keyed maps -/

/-- Lookup of a key in an association list, mirroring `HashMap::get` /
`DashMap::get`: the first binding of the key wins (the operations below
keep keys unique, so there is at most one). -/
def alookup {α : Type} : String → List (String × α) → Option α
  | _, [] => none
  | k, (k', v) :: rest => if k' = k then some v else alookup k rest

/-- Keys of an association list. -/
def akeys {α : Type} (l : List (String × α)) : List String :=
  l.map Prod.fst

/-- The keys of the association list are pairwise distinct: the invariant a
`HashMap` / `DashMap` enforces by construction. -/
def NodupKeys {α : Type} (l : List (String × α)) : Prop :=
  (akeys l).Nodup

instance {α : Type} (l : List (String × α)) : Decidable (NodupKeys l) := by
  unfold NodupKeys; infer_instance

/-! ### JA4 consistency engine: data model (`src/huginn-core/src/ja4.rs`) -/

/-- Entry from the JA4 database (`struct JA4Entry`). -/
structure JA4Entry where
  application : Option String
  library : Option String
  device : Option String
  os : Option String
  user_agent_string : Option String
  certificate_authority : Option String
  observation_count : Option Nat
  verified : Bool
  notes : Option String
  ja4_fingerprint : Option String
  ja4_fingerprint_string : Option String
  ja4s_fingerprint : Option String
  ja4h_fingerprint : Option String
  ja4x_fingerprint : Option String
  ja4t_fingerprint : Option String
  ja4ts_fingerprint : Option String
  ja4tscan_fingerprint : Option String
  deriving DecidableEq, Repr

/-- The three indices of `struct JA4Database`, each a
`HashMap<String, Vec<JA4Entry>>`. -/
abbrev JA4Map := List (String × List JA4Entry)

/-- JA4 database for validation (`struct JA4Database`). -/
structure JA4Database where
  ja4_to_entries : JA4Map
  ua_to_entries : JA4Map
  app_to_entries : JA4Map
  total_entries : Nat
  deriving DecidableEq

/-- Verification status for the match (`enum VerificationStatus`). -/
inductive VerificationStatus where
  | ExactMatch (verified : Bool) (observation_count : Option Nat)
  | JA4Match (expected_ua : List String)
  | UserAgentMatch (expected_ja4 : List String)
  | NoMatch
  | InsufficientData
  deriving DecidableEq, Repr

/-- Consistency analysis result (`struct ConsistencyAnalysis`). -/
structure ConsistencyAnalysis where
  is_consistent : Bool
  confidence : ℚ
  expected_applications : List String
  detected_application : Option String
  anomalies : List String
  verification_status : VerificationStatus
  deriving DecidableEq

/-- The list stored under a key, defaulting to the empty list, mirroring
`map.get(k).unwrap_or(&empty_vec)`. -/
def mapGetD (m : JA4Map) (k : String) : List JA4Entry :=
  (alookup k m).getD []

/-- `entry(k).or_insert_with(Vec::new).push(e)`: append `e` to the vector
stored under `k`, creating the binding when absent. -/
def insertEntry : JA4Map → String → JA4Entry → JA4Map
  | [], k, e => [(k, [e])]
  | (k', l) :: rest, k, e =>
      if k' = k then (k', l ++ [e]) :: rest else (k', l) :: insertEntry rest k e

/-- One iteration of the indexing loop of `JA4Database::from_json`: index the
entry by `ja4_fingerprint` when present, by `user_agent_string` when present
and non-empty, and by `application` when present and non-empty.  The
accumulator is the triple `(ja4_to_entries, ua_to_entries, app_to_entries)`.
Note the source guards the User-Agent and Application indices with
`!s.is_empty()` but puts no such guard on the JA4 index. -/
def indexStep (maps : JA4Map × JA4Map × JA4Map) (e : JA4Entry) :
    JA4Map × JA4Map × JA4Map :=
  let m1 := match e.ja4_fingerprint with
    | some ja4 => insertEntry maps.1 ja4 e
    | none => maps.1
  let m2 := match e.user_agent_string with
    | some ua => if ua = "" then maps.2.1 else insertEntry maps.2.1 ua e
    | none => maps.2.1
  let m3 := match e.application with
    | some app => if app = "" then maps.2.2 else insertEntry maps.2.2 app e
    | none => maps.2.2
  (m1, m2, m3)

/-- Parse the JA4 database (`JA4Database::from_json`).  The `serde_json`
parse of the input string into `Vec<JA4Entry>` is abstracted: this function
consumes the parsed list; the remainder of the Rust function is total, so a
successfully parsed input always yields `Ok`. -/
def JA4Database.from_json (entries : List JA4Entry) : JA4Database :=
  let maps := entries.foldl indexStep ([], [], [])
  { ja4_to_entries := maps.1
    ua_to_entries := maps.2.1
    app_to_entries := maps.2.2
    total_entries := entries.length }

/-- Find exact match for the JA4 and User-Agent combination
(`JA4Database::find_exact_match`):  the first entry under the JA4 key whose
`user_agent_string` is `Some` and equal to `user_agent`. -/
def JA4Database.find_exact_match (db : JA4Database) (ja4 user_agent : String) :
    Option JA4Entry :=
  (alookup ja4 db.ja4_to_entries).bind fun l =>
    l.find? fun e => decide (e.user_agent_string = some user_agent)

/-- Rust `Debug` escaping of a single character inside a double-quoted
string, as produced by `format!` with `{:?}` on a `String`. -/
def rustEscapeChar (c : Char) : String :=
  if c = '\"' then "\\\""
  else if c = '\\' then "\\\\"
  else if c = '\n' then "\\n"
  else if c = '\r' then "\\r"
  else if c = '\t' then "\\t"
  else String.singleton c

/-- Rust `Debug` rendering of a `String`. -/
def rustDebugStr (s : String) : String :=
  "\"" ++ String.join (s.toList.map rustEscapeChar) ++ "\""

/-- Rust `Debug` rendering of a `Vec<String>`, as interpolated by
`format!("... {v:?} ...")`. -/
def rustDebugList (l : List String) : String :=
  "[" ++ String.intercalate ", " (l.map rustDebugStr) ++ "]"

/-- Character-list test that `pat` starts `s`. -/
def charsStartWith : List Char → List Char → Bool
  | _, [] => true
  | [], _ :: _ => false
  | c :: cs, p :: ps => c = p && charsStartWith cs ps

/-- Character-list test that `pat` occurs contiguously inside `s`. -/
def charsContain : List Char → List Char → Bool
  | [], pat => pat.isEmpty
  | s@(_ :: cs), pat => charsStartWith s pat || charsContain cs pat

/-- Substring test: `pat` occurs inside `s` (Rust `str::contains`; here it is
only ever applied to already-lowercased input). -/
def strContains (s pat : String) : Bool :=
  charsContain s.toList pat.toList

/-- Extract the application name from a User-Agent string
(`JA4Database::extract_application_from_ua`). -/
def JA4Database.extract_application_from_ua (_db : JA4Database)
    (user_agent : String) : Option String :=
  let ua_lower := user_agent.toLower
  if strContains ua_lower "chrome" then some "Chrome"
  else if strContains ua_lower "firefox" then some "Firefox"
  else if strContains ua_lower "safari" && !strContains ua_lower "chrome" then
    some "Safari"
  else if strContains ua_lower "edge" then some "Edge"
  else if strContains ua_lower "opera" then some "Opera"
  else none

/-- Analyze partial matches between JA4 and User-Agent
(`JA4Database::analyze_partial_matches`).  Returns
`(is_consistent, confidence, anomalies, verification_status)`. -/
def JA4Database.analyze_partial_matches (_db : JA4Database)
    (ja4_entries ua_entries : List JA4Entry) (_user_agent : String) :
    Bool × ℚ × List String × VerificationStatus :=
  -- Case 1: JA4 found but different User-Agent
  if !ja4_entries.isEmpty && ua_entries.isEmpty then
    let expected_uas := ja4_entries.filterMap (·.user_agent_string)
    (false, 0.3, ["JA4 fingerprint known but User-Agent not expected"],
      VerificationStatus.JA4Match expected_uas)
  -- Case 2: User-Agent found but different JA4
  else if ja4_entries.isEmpty && !ua_entries.isEmpty then
    let expected_ja4s := ua_entries.filterMap (·.ja4_fingerprint)
    (false, 0.3, ["User-Agent known but JA4 fingerprint not expected"],
      VerificationStatus.UserAgentMatch expected_ja4s)
  -- Case 3: Both found but possibly inconsistent applications
  else if !ja4_entries.isEmpty && !ua_entries.isEmpty then
    let ja4_apps := ja4_entries.filterMap (·.application)
    let ua_apps := ua_entries.filterMap (·.application)
    let has_overlap := ja4_apps.any fun app => ua_apps.contains app
    if has_overlap then
      (true, 0.7, [], VerificationStatus.NoMatch)
    else
      (false, 0.2,
        ["Application mismatch: JA4 suggests " ++ rustDebugList ja4_apps ++
          ", User-Agent suggests " ++ rustDebugList ua_apps],
        VerificationStatus.NoMatch)
  -- Case 4: Neither found
  else
    (false, 0.1, ["Unknown JA4 and User-Agent combination"],
      VerificationStatus.NoMatch)

/-- Validate consistency between the JA4 fingerprint and the User-Agent
(`JA4Database::validate_consistency`). -/
def JA4Database.validate_consistency (db : JA4Database)
    (ja4 user_agent : String) : ConsistencyAnalysis :=
  let ja4_entries := mapGetD db.ja4_to_entries ja4
  let ua_entries := mapGetD db.ua_to_entries user_agent
  match db.find_exact_match ja4 user_agent with
  | some exact_match =>
      { is_consistent := true
        confidence := if exact_match.verified then 0.95 else 0.8
        expected_applications := exact_match.application.toList
        detected_application := db.extract_application_from_ua user_agent
        anomalies := []
        verification_status :=
          VerificationStatus.ExactMatch exact_match.verified
            exact_match.observation_count }
  | none =>
      let r := db.analyze_partial_matches ja4_entries ua_entries user_agent
      { is_consistent := r.1
        confidence := r.2.1
        expected_applications := ja4_entries.filterMap (·.application)
        detected_application := db.extract_application_from_ua user_agent
        anomalies := r.2.2.1
        verification_status := r.2.2.2 }

/-! ### Profile assembler: data model (`src/profiler/profile-assembler/src/main.rs`) -/

/-- `struct NetworkEndpoint`. -/
structure NetworkEndpoint where
  ip : String
  port : Nat
  deriving DecidableEq, Repr

/-- `struct OsDetection` (`quality: f32` modelled as `ℚ`). -/
structure OsDetection where
  os : String
  quality : ℚ
  deriving DecidableEq, Repr

/-- `struct TcpObserved`. -/
structure TcpObserved where
  version : String
  initial_ttl : String
  options_length : Nat
  mss : Option Nat
  window_size : String
  window_scale : Option Nat
  options_layout : String
  quirks : String
  payload_class : String
  deriving DecidableEq, Repr

/-- `struct SynPacketData`. -/
structure SynPacketData where
  source : NetworkEndpoint
  destination : NetworkEndpoint
  os_detected : OsDetection
  signature : String
  observed : TcpObserved
  timestamp : Nat
  deriving DecidableEq, Repr

/-- `struct SynAckPacketData` (same shape as `SynPacketData`). -/
structure SynAckPacketData where
  source : NetworkEndpoint
  destination : NetworkEndpoint
  os_detected : OsDetection
  signature : String
  observed : TcpObserved
  timestamp : Nat
  deriving DecidableEq, Repr

/-- `struct MtuData`. -/
structure MtuData where
  source : NetworkEndpoint
  destination : NetworkEndpoint
  link : String
  mtu_value : Nat
  timestamp : Nat
  deriving DecidableEq, Repr

/-- `struct UptimeData` (`freq: f64` modelled as `ℚ`). -/
structure UptimeData where
  source : NetworkEndpoint
  destination : NetworkEndpoint
  uptime_seconds : Nat
  up_mod_days : Nat
  freq : ℚ
  timestamp : Nat
  deriving DecidableEq, Repr

/-- `struct BrowserDetection` (`quality: f32` modelled as `ℚ`). -/
structure BrowserDetection where
  browser : String
  quality : ℚ
  deriving DecidableEq, Repr

/-- `struct HttpRequestObserved`. -/
structure HttpRequestObserved where
  lang : Option String
  user_agent : Option String
  diagnostic : String
  method : Option String
  version : String
  headers : String
  uri : Option String
  deriving DecidableEq, Repr

/-- `struct HttpRequestData`. -/
structure HttpRequestData where
  source : NetworkEndpoint
  destination : NetworkEndpoint
  observed : HttpRequestObserved
  signature : String
  browser : BrowserDetection
  timestamp : Nat
  deriving DecidableEq, Repr

/-- `struct WebServerDetection` (`quality: f32` modelled as `ℚ`). -/
structure WebServerDetection where
  web_server : String
  quality : ℚ
  deriving DecidableEq, Repr

/-- `struct HttpResponseObserved`. -/
structure HttpResponseObserved where
  server : Option String
  version : String
  headers : String
  status_code : Option Nat
  deriving DecidableEq, Repr

/-- `struct HttpResponseData`. -/
structure HttpResponseData where
  source : NetworkEndpoint
  destination : NetworkEndpoint
  observed : HttpResponseObserved
  signature : String
  web_server : WebServerDetection
  timestamp : Nat
  deriving DecidableEq, Repr

/-- `struct TlsClientObserved`. -/
structure TlsClientObserved where
  version : String
  sni : Option String
  alpn : Option String
  cipher_suites : List Nat
  extensions : List Nat
  signature_algorithms : List Nat
  elliptic_curves : List Nat
  deriving DecidableEq, Repr

/-- `struct TlsClient`. -/
structure TlsClient where
  timestamp : Nat
  source : NetworkEndpoint
  destination : NetworkEndpoint
  ja4 : String
  ja4_raw : String
  ja4_original : String
  ja4_original_raw : String
  observed : TlsClientObserved
  deriving DecidableEq, Repr

/-- `struct Profile`. -/
structure Profile where
  id : String
  timestamp : Nat
  syn : Option SynPacketData
  syn_ack : Option SynAckPacketData
  mtu : Option MtuData
  uptime : Option UptimeData
  http_request : Option HttpRequestData
  http_response : Option HttpResponseData
  tls_client : Option TlsClient
  last_seen : String
  deriving DecidableEq, Repr

/-- `#[derive(Default)]` for `Profile`: empty strings, zero timestamp, and
`None` in every observation slot. -/
def Profile.default : Profile :=
  { id := ""
    timestamp := 0
    syn := none
    syn_ack := none
    mtu := none
    uptime := none
    http_request := none
    http_response := none
    tls_client := none
    last_seen := "" }

/-- The profile store `AppState = Arc<DashMap<String, Profile>>`, modelled as
an association list keyed by IP. -/
abbrev Store := List (String × Profile)

/-- `const MAX_PROFILES: usize = 100`. -/
def MAX_PROFILES : Nat := 100

/-- `state.entry(ip).or_default()` followed by a mutation `f` of the entry:
apply `f` to the existing binding of `ip`, or bind `ip` to
`f Profile.default` when absent. -/
def storeUpdate : Store → String → (Profile → Profile) → Store
  | [], ip, f => [(ip, f Profile.default)]
  | (k, p) :: rest, ip, f =>
      if k = ip then (k, f p) :: rest else (k, p) :: storeUpdate rest ip f

/-- `enforce_profile_limit`: when the store holds more than `MAX_PROFILES`
profiles, sort the `(key, last_seen)` pairs by `last_seen` (Rust
`sort_by(|a, b| a.1.cmp(&b.1))`, a stable sort; lexicographic string
order) and remove the first `len - MAX_PROFILES` keys. -/
def enforce_profile_limit (st : Store) : Store :=
  if st.length ≤ MAX_PROFILES then st
  else
    let profiles := st.map fun kv => (kv.1, kv.2.last_seen)
    let sorted := profiles.insertionSort fun a b => a.2 ≤ b.2
    let to_remove := st.length - MAX_PROFILES
    let remove_keys := (sorted.take to_remove).map Prod.fst
    st.filter fun kv => !remove_keys.contains kv.1

/-- Upsert step of `ingest_syn`: key on the source IP of the payload. -/
def ingest_syn_upsert (st : Store) (ingest : SynPacketData) (now : String) :
    Store :=
  let ip := ingest.source.ip
  storeUpdate st ip fun p =>
    { p with id := ip, syn := some ingest, last_seen := now }

/-- Handler `ingest_syn`: upsert, then `enforce_profile_limit`. -/
def ingest_syn (st : Store) (ingest : SynPacketData) (now : String) : Store :=
  enforce_profile_limit (ingest_syn_upsert st ingest now)

/-- Upsert step of `ingest_syn_ack`: key on the destination IP of the payload
(the client). -/
def ingest_syn_ack_upsert (st : Store) (ingest : SynAckPacketData)
    (now : String) : Store :=
  let client_ip := ingest.destination.ip
  storeUpdate st client_ip fun p =>
    { p with id := client_ip, syn_ack := some ingest, last_seen := now }

/-- Handler `ingest_syn_ack`: upsert, then `enforce_profile_limit`. -/
def ingest_syn_ack (st : Store) (ingest : SynAckPacketData) (now : String) :
    Store :=
  enforce_profile_limit (ingest_syn_ack_upsert st ingest now)

/-- Upsert step of `ingest_mtu`: key on the source IP of the payload. -/
def ingest_mtu_upsert (st : Store) (ingest : MtuData) (now : String) : Store :=
  let ip := ingest.source.ip
  storeUpdate st ip fun p =>
    { p with id := ip, mtu := some ingest, last_seen := now }

/-- Handler `ingest_mtu`: upsert, then `enforce_profile_limit`. -/
def ingest_mtu (st : Store) (ingest : MtuData) (now : String) : Store :=
  enforce_profile_limit (ingest_mtu_upsert st ingest now)

/-- Upsert step of `ingest_uptime`: key on the destination IP of the payload. -/
def ingest_uptime_upsert (st : Store) (ingest : UptimeData) (now : String) :
    Store :=
  let ip := ingest.destination.ip
  storeUpdate st ip fun p =>
    { p with id := ip, uptime := some ingest, last_seen := now }

/-- Handler `ingest_uptime`: upsert, then `enforce_profile_limit`. -/
def ingest_uptime (st : Store) (ingest : UptimeData) (now : String) : Store :=
  enforce_profile_limit (ingest_uptime_upsert st ingest now)

/-- Upsert step of `ingest_http_request`: key on the source IP of the payload. -/
def ingest_http_request_upsert (st : Store) (ingest : HttpRequestData)
    (now : String) : Store :=
  let ip := ingest.source.ip
  storeUpdate st ip fun p =>
    { p with id := ip, http_request := some ingest, last_seen := now }

/-- Handler `ingest_http_request`: upsert, then `enforce_profile_limit`. -/
def ingest_http_request (st : Store) (ingest : HttpRequestData)
    (now : String) : Store :=
  enforce_profile_limit (ingest_http_request_upsert st ingest now)

/-- Upsert step of `ingest_http_response`: key on the destination IP of
the payload (the client). -/
def ingest_http_response_upsert (st : Store) (ingest : HttpResponseData)
    (now : String) : Store :=
  let client_ip := ingest.destination.ip
  storeUpdate st client_ip fun p =>
    { p with id := client_ip, http_response := some ingest, last_seen := now }

/-- Handler `ingest_http_response`: upsert, then `enforce_profile_limit`. -/
def ingest_http_response (st : Store) (ingest : HttpResponseData)
    (now : String) : Store :=
  enforce_profile_limit (ingest_http_response_upsert st ingest now)

/-- Upsert step of `ingest_tls`: key on the source IP of the payload. -/
def ingest_tls_upsert (st : Store) (ingest : TlsClient) (now : String) :
    Store :=
  let ip := ingest.source.ip
  storeUpdate st ip fun p =>
    { p with id := ip, tls_client := some ingest, last_seen := now }

/-- Handler `ingest_tls`: upsert, then `enforce_profile_limit`. -/
def ingest_tls (st : Store) (ingest : TlsClient) (now : String) : Store :=
  enforce_profile_limit (ingest_tls_upsert st ingest now)

/-- One ingest operation: the seven kinds the assembler routes. -/
inductive IngestOp where
  | syn (d : SynPacketData)
  | syn_ack (d : SynAckPacketData)
  | mtu (d : MtuData)
  | uptime (d : UptimeData)
  | http_request (d : HttpRequestData)
  | http_response (d : HttpResponseData)
  | tls (d : TlsClient)

/-- Dispatch one ingest operation to its handler. -/
def applyIngest (st : Store) (op : IngestOp) (now : String) : Store :=
  match op with
  | IngestOp.syn d => ingest_syn st d now
  | IngestOp.syn_ack d => ingest_syn_ack st d now
  | IngestOp.mtu d => ingest_mtu st d now
  | IngestOp.uptime d => ingest_uptime st d now
  | IngestOp.http_request d => ingest_http_request st d now
  | IngestOp.http_response d => ingest_http_response st d now
  | IngestOp.tls d => ingest_tls st d now

/-- Run a sequence of ingest operations (each with the wall-clock string the
handler observed) against the initially empty store. -/
def applyAll (ops : List (IngestOp × String)) : Store :=
  ops.foldl (fun st step => applyIngest st step.1 step.2) []

/-! ### Helper lemmas for the JA4 engine -/

/-- Membership in `mapGetD` unfolds to a successful lookup. -/
theorem mem_mapGetD {m : JA4Map} {k : String} {e : JA4Entry} :
    e ∈ mapGetD m k ↔ ∃ l, alookup k m = some l ∧ e ∈ l := by
  unfold mapGetD
  cases h : alookup k m <;> simp

/-- A successful `find_exact_match` returns an entry stored under the JA4
key whose `user_agent_string` is the probed User-Agent. -/
theorem find_exact_match_spec {db : JA4Database} {ja4 ua : String}
    {e' : JA4Entry} (hf : db.find_exact_match ja4 ua = some e') :
    e' ∈ mapGetD db.ja4_to_entries ja4 ∧ e'.user_agent_string = some ua := by
  unfold JA4Database.find_exact_match at hf
  cases h : alookup ja4 db.ja4_to_entries with
  | none => rw [h] at hf; exact Option.noConfusion hf
  | some l =>
      rw [h] at hf
      replace hf : l.find? (fun e => decide (e.user_agent_string = some ua))
          = some e' := hf
      refine ⟨mem_mapGetD.mpr ⟨l, h, List.mem_of_find?_eq_some hf⟩, ?_⟩
      have := List.find?_some hf
      simpa using this

/-- When some entry under the JA4 key carries the probed User-Agent,
`find_exact_match` succeeds. -/
theorem find_exact_match_isSome {db : JA4Database} {ja4 ua : String}
    {e : JA4Entry} (he : e ∈ mapGetD db.ja4_to_entries ja4)
    (hua : e.user_agent_string = some ua) :
    ∃ e', db.find_exact_match ja4 ua = some e' := by
  obtain ⟨l, hl, hel⟩ := mem_mapGetD.mp he
  have : (l.find? fun e' => decide (e'.user_agent_string = some ua)).isSome := by
    rw [List.find?_isSome]
    exact ⟨e, hel, by simp [hua]⟩
  obtain ⟨e', hf⟩ := Option.isSome_iff_exists.mp this
  exact ⟨e', by unfold JA4Database.find_exact_match; rw [hl]; simpa using hf⟩

/-- The partial-match analysis only ever reports `JA4Match`,
`UserAgentMatch` or `NoMatch`. -/
theorem analyze_partial_matches_status (db : JA4Database)
    (je ue : List JA4Entry) (ua : String) :
    (∃ l, (db.analyze_partial_matches je ue ua).2.2.2
        = VerificationStatus.JA4Match l)
    ∨ (∃ l, (db.analyze_partial_matches je ue ua).2.2.2
        = VerificationStatus.UserAgentMatch l)
    ∨ (db.analyze_partial_matches je ue ua).2.2.2
        = VerificationStatus.NoMatch := by
  unfold JA4Database.analyze_partial_matches
  split
  · exact Or.inl ⟨_, rfl⟩
  · split
    · exact Or.inr (Or.inl ⟨_, rfl⟩)
    · split
      · right; right
        dsimp only
        split <;> rfl
      · exact Or.inr (Or.inr rfl)

/-- C1: if some entry stored under `ja4` carries `user_agent_string = ua`,
then `validate_consistency` reports an exact match: `is_consistent = true`,
status `ExactMatch` with the `verified` flag of the matched entry and
`observation_count`, confidence 0.95 when verified and 0.8 otherwise, no
anomalies, and `expected_applications` the singleton of the application
of the matched entry (empty when absent). -/
theorem ja4_validate_exact_match (db : JA4Database) (ja4 ua : String)
    (e : JA4Entry) (he : e ∈ mapGetD db.ja4_to_entries ja4)
    (hua : e.user_agent_string = some ua) :
    ∃ e', e' ∈ mapGetD db.ja4_to_entries ja4
      ∧ e'.user_agent_string = some ua
      ∧ (db.validate_consistency ja4 ua).is_consistent = true
      ∧ (db.validate_consistency ja4 ua).verification_status
          = VerificationStatus.ExactMatch e'.verified e'.observation_count
      ∧ (db.validate_consistency ja4 ua).confidence
          = (if e'.verified then (0.95 : ℚ) else 0.8)
      ∧ (db.validate_consistency ja4 ua).anomalies = []
      ∧ (db.validate_consistency ja4 ua).expected_applications
          = e'.application.toList := by
  obtain ⟨e', hf⟩ := find_exact_match_isSome he hua
  obtain ⟨hmem, hfua⟩ := find_exact_match_spec hf
  refine ⟨e', hmem, hfua, ?_, ?_, ?_, ?_, ?_⟩ <;>
    simp [JA4Database.validate_consistency, hf]

/-- C10: `validate_consistency` never produces `InsufficientData`; its
status is always `ExactMatch`, `JA4Match`, `UserAgentMatch` or `NoMatch`. -/
theorem validate_status_never_insufficient (db : JA4Database)
    (ja4 ua : String) :
    (∃ v oc, (db.validate_consistency ja4 ua).verification_status
        = VerificationStatus.ExactMatch v oc)
    ∨ (∃ l, (db.validate_consistency ja4 ua).verification_status
        = VerificationStatus.JA4Match l)
    ∨ (∃ l, (db.validate_consistency ja4 ua).verification_status
        = VerificationStatus.UserAgentMatch l)
    ∨ (db.validate_consistency ja4 ua).verification_status
        = VerificationStatus.NoMatch := by
  cases hf : db.find_exact_match ja4 ua with
  | some em =>
      exact Or.inl ⟨em.verified, em.observation_count,
        by simp [JA4Database.validate_consistency, hf]⟩
  | none =>
      have hs : (db.validate_consistency ja4 ua).verification_status
          = (db.analyze_partial_matches (mapGetD db.ja4_to_entries ja4)
              (mapGetD db.ua_to_entries ua) ua).2.2.2 := by
        simp [JA4Database.validate_consistency, hf]
      rcases analyze_partial_matches_status db (mapGetD db.ja4_to_entries ja4)
          (mapGetD db.ua_to_entries ua) ua with ⟨l, h⟩ | ⟨l, h⟩ | h
      · exact Or.inr (Or.inl ⟨l, hs.trans h⟩)
      · exact Or.inr (Or.inr (Or.inl ⟨l, hs.trans h⟩))
      · exact Or.inr (Or.inr (Or.inr (hs.trans h)))

/-- C8: an `ExactMatch` verdict implies that every returned expected
application is the application of some entry stored under the probed JA4. -/
theorem exact_match_apps_sound (db : JA4Database) (ja4 ua : String)
    (v : Bool) (oc : Option Nat)
    (h : (db.validate_consistency ja4 ua).verification_status
        = VerificationStatus.ExactMatch v oc) :
    ∀ app ∈ (db.validate_consistency ja4 ua).expected_applications,
      ∃ e, e ∈ mapGetD db.ja4_to_entries ja4 ∧ e.application = some app := by
  cases hf : db.find_exact_match ja4 ua with
  | none =>
      exfalso
      have hs : (db.validate_consistency ja4 ua).verification_status
          = (db.analyze_partial_matches (mapGetD db.ja4_to_entries ja4)
              (mapGetD db.ua_to_entries ua) ua).2.2.2 := by
        simp [JA4Database.validate_consistency, hf]
      rcases analyze_partial_matches_status db (mapGetD db.ja4_to_entries ja4)
          (mapGetD db.ua_to_entries ua) ua with ⟨l, h2⟩ | ⟨l, h2⟩ | h2 <;>
        rw [hs, h2] at h <;> exact VerificationStatus.noConfusion h
  | some em =>
      intro app happ
      have hexp : (db.validate_consistency ja4 ua).expected_applications
          = em.application.toList := by
        simp [JA4Database.validate_consistency, hf]
      rw [hexp] at happ
      exact ⟨em, (find_exact_match_spec hf).1, by simpa using happ⟩

/-- C9: `from_json` succeeds on every parsed entry list and records the
length of the list as `total_entries`. -/
theorem from_json_total_entries_eq (entries : List JA4Entry) :
    (JA4Database.from_json entries).total_entries = entries.length := rfl

/-- Case 3 of `analyze_partial_matches`, isolated: both entry lists
non-empty. -/
theorem analyze_partial_matches_both (db : JA4Database)
    (je ue : List JA4Entry) (ua : String) (hje : je ≠ []) (hue : ue ≠ []) :
    db.analyze_partial_matches je ue ua =
      (if (je.filterMap (fun e => e.application)).any
            (fun app => (ue.filterMap (fun e => e.application)).contains app)
        then ((true : Bool), (0.7 : ℚ), ([] : List String),
          VerificationStatus.NoMatch)
        else (false, 0.2,
          ["Application mismatch: JA4 suggests "
              ++ rustDebugList (je.filterMap (fun e => e.application))
              ++ ", User-Agent suggests "
              ++ rustDebugList (ue.filterMap (fun e => e.application))],
          VerificationStatus.NoMatch)) := by
  have hje' : je.isEmpty = false := List.isEmpty_eq_false.mpr hje
  have hue' : ue.isEmpty = false := List.isEmpty_eq_false.mpr hue
  unfold JA4Database.analyze_partial_matches
  rw [hje', hue']
  simp

/-- C5: both keys indexed but no exact pair. The verdict is `NoMatch`; with
an application shared between the two entry lists the result is consistent
at confidence 0.7 with no anomalies, otherwise inconsistent at confidence
0.2 with exactly one anomaly beginning with "Application mismatch:". -/
theorem ja4_validate_partial_both (db : JA4Database) (ja4 ua : String)
    (h1 : mapGetD db.ja4_to_entries ja4 ≠ [])
    (h2 : mapGetD db.ua_to_entries ua ≠ [])
    (h3 : ∀ e ∈ mapGetD db.ja4_to_entries ja4,
        e.user_agent_string ≠ some ua) :
    (db.validate_consistency ja4 ua).verification_status
        = VerificationStatus.NoMatch
    ∧ ((∃ app,
          app ∈ (mapGetD db.ja4_to_entries ja4).filterMap
            (fun e => e.application)
          ∧ app ∈ (mapGetD db.ua_to_entries ua).filterMap
            (fun e => e.application)) →
        (db.validate_consistency ja4 ua).is_consistent = true
        ∧ (db.validate_consistency ja4 ua).confidence = 0.7
        ∧ (db.validate_consistency ja4 ua).anomalies = [])
    ∧ ((¬ ∃ app,
          app ∈ (mapGetD db.ja4_to_entries ja4).filterMap
            (fun e => e.application)
          ∧ app ∈ (mapGetD db.ua_to_entries ua).filterMap
            (fun e => e.application)) →
        (db.validate_consistency ja4 ua).is_consistent = false
        ∧ (db.validate_consistency ja4 ua).confidence = 0.2
        ∧ ∃ rest, (db.validate_consistency ja4 ua).anomalies
            = ["Application mismatch:" ++ rest]) := by
  have hf : db.find_exact_match ja4 ua = none := by
    unfold JA4Database.find_exact_match
    cases hl : alookup ja4 db.ja4_to_entries with
    | none => rfl
    | some l =>
        have hnone : l.find?
            (fun e => decide (e.user_agent_string = some ua)) = none := by
          rw [List.find?_eq_none]
          intro e hel
          simpa using h3 e (mem_mapGetD.mpr ⟨l, hl, hel⟩)
        exact hnone
  have hcase := analyze_partial_matches_both db (mapGetD db.ja4_to_entries ja4)
    (mapGetD db.ua_to_entries ua) ua h1 h2
  have hiff : ((mapGetD db.ja4_to_entries ja4).filterMap
        (fun e => e.application)).any
        (fun app => ((mapGetD db.ua_to_entries ua).filterMap
          (fun e => e.application)).contains app) = true
      ↔ ∃ app,
          app ∈ (mapGetD db.ja4_to_entries ja4).filterMap
            (fun e => e.application)
          ∧ app ∈ (mapGetD db.ua_to_entries ua).filterMap
            (fun e => e.application) := by
    constructor
    · intro h
      obtain ⟨app, happ, hc⟩ := List.any_eq_true.mp h
      exact ⟨app, happ, by simpa using hc⟩
    · rintro ⟨app, happ1, happ2⟩
      exact List.any_eq_true.mpr ⟨app, happ1, by simpa using happ2⟩
  by_cases hb : ((mapGetD db.ja4_to_entries ja4).filterMap
      (fun e => e.application)).any
      (fun app => ((mapGetD db.ua_to_entries ua).filterMap
        (fun e => e.application)).contains app) = true
  · rw [if_pos hb] at hcase
    refine ⟨?_, fun _ => ⟨?_, ?_, ?_⟩, fun hno => absurd (hiff.mp hb) hno⟩ <;>
      simp [JA4Database.validate_consistency, hf, hcase]
  · rw [if_neg hb] at hcase
    refine ⟨?_, fun hex => absurd (hiff.mpr hex) hb, fun _ => ⟨?_, ?_, ?_⟩⟩
    · simp [JA4Database.validate_consistency, hf, hcase]
    · simp [JA4Database.validate_consistency, hf, hcase]
    · simp [JA4Database.validate_consistency, hf, hcase]
    · refine ⟨" JA4 suggests "
          ++ rustDebugList ((mapGetD db.ja4_to_entries ja4).filterMap
            (fun e => e.application))
          ++ ", User-Agent suggests "
          ++ rustDebugList ((mapGetD db.ua_to_entries ua).filterMap
            (fun e => e.application)), ?_⟩
      have hanom : (db.validate_consistency ja4 ua).anomalies
          = ["Application mismatch: JA4 suggests "
              ++ rustDebugList ((mapGetD db.ja4_to_entries ja4).filterMap
                (fun e => e.application))
              ++ ", User-Agent suggests "
              ++ rustDebugList ((mapGetD db.ua_to_entries ua).filterMap
                (fun e => e.application))] := by
        simp [JA4Database.validate_consistency, hf, hcase]
      rw [hanom]
      refine congrArg (fun s => [s]) ?_
      apply String.ext
      have hdata : ("Application mismatch: JA4 suggests " : String).data
          = ("Application mismatch:" : String).data
            ++ (" JA4 suggests " : String).data := by decide
      simp only [String.data_append, hdata, List.append_assoc]
      simp [List.cons_append]

/-! ### Index-membership characterization for `from_json` -/

/-- The key under which `from_json` indexes an entry in the JA4 map:
the fingerprint whenever present (no emptiness guard in the source). -/
def ja4Key (e : JA4Entry) : Option String := e.ja4_fingerprint

/-- The key under which `from_json` indexes an entry in the User-Agent map:
present and non-empty. -/
def uaKey (e : JA4Entry) : Option String :=
  match e.user_agent_string with
  | some ua => if ua = "" then none else some ua
  | none => none

/-- The key under which `from_json` indexes an entry in the application map:
present and non-empty. -/
def appKey (e : JA4Entry) : Option String :=
  match e.application with
  | some app => if app = "" then none else some app
  | none => none

/-- Insert an entry into one index under its key, when it has one. -/
def applyKey (f : JA4Entry → Option String) (m : JA4Map) (e : JA4Entry) :
    JA4Map :=
  match f e with
  | some k => insertEntry m k e
  | none => m

theorem indexStep_fst (maps : JA4Map × JA4Map × JA4Map) (e : JA4Entry) :
    (indexStep maps e).1 = applyKey ja4Key maps.1 e := by
  cases h : e.ja4_fingerprint <;> simp [indexStep, applyKey, ja4Key, h]

theorem indexStep_ua (maps : JA4Map × JA4Map × JA4Map) (e : JA4Entry) :
    (indexStep maps e).2.1 = applyKey uaKey maps.2.1 e := by
  cases h : e.user_agent_string with
  | none => simp [indexStep, applyKey, uaKey, h]
  | some ua =>
      by_cases h0 : ua = "" <;> simp [indexStep, applyKey, uaKey, h, h0]

theorem indexStep_app (maps : JA4Map × JA4Map × JA4Map) (e : JA4Entry) :
    (indexStep maps e).2.2 = applyKey appKey maps.2.2 e := by
  cases h : e.application with
  | none => simp [indexStep, applyKey, appKey, h]
  | some app =>
      by_cases h0 : app = "" <;> simp [indexStep, applyKey, appKey, h, h0]

theorem foldl_indexStep_fst (entries : List JA4Entry)
    (acc : JA4Map × JA4Map × JA4Map) :
    (entries.foldl indexStep acc).1
      = entries.foldl (applyKey ja4Key) acc.1 := by
  induction entries generalizing acc with
  | nil => rfl
  | cons x xs ih => simp [List.foldl_cons, ih, indexStep_fst]

theorem foldl_indexStep_ua (entries : List JA4Entry)
    (acc : JA4Map × JA4Map × JA4Map) :
    (entries.foldl indexStep acc).2.1
      = entries.foldl (applyKey uaKey) acc.2.1 := by
  induction entries generalizing acc with
  | nil => rfl
  | cons x xs ih => simp [List.foldl_cons, ih, indexStep_ua]

theorem foldl_indexStep_app (entries : List JA4Entry)
    (acc : JA4Map × JA4Map × JA4Map) :
    (entries.foldl indexStep acc).2.2
      = entries.foldl (applyKey appKey) acc.2.2 := by
  induction entries generalizing acc with
  | nil => rfl
  | cons x xs ih => simp [List.foldl_cons, ih, indexStep_app]

theorem alookup_insertEntry_self (m : JA4Map) (k : String) (v : JA4Entry) :
    alookup k (insertEntry m k v) = some (mapGetD m k ++ [v]) := by
  induction m with
  | nil => simp [insertEntry, alookup, mapGetD]
  | cons hd tl ih =>
      obtain ⟨k', l⟩ := hd
      by_cases h : k' = k
      · subst h; simp [insertEntry, alookup, mapGetD]
      · simp [insertEntry, alookup, h, ih, mapGetD]

theorem alookup_insertEntry_ne {j k : String} (m : JA4Map) (v : JA4Entry)
    (h : j ≠ k) : alookup j (insertEntry m k v) = alookup j m := by
  have hkj : ¬ k = j := fun hh => h hh.symm
  induction m with
  | nil => simp [insertEntry, alookup, hkj]
  | cons hd tl ih =>
      obtain ⟨k', l⟩ := hd
      by_cases h1 : k' = k
      · subst h1
        have h2 : ¬ k' = j := fun hh => h hh.symm
        simp [insertEntry, alookup, h2]
      · by_cases h2 : k' = j <;>
          simp [insertEntry, alookup, h1, h2, h, hkj, ih]

theorem mem_mapGetD_insertEntry {m : JA4Map} {k j : String}
    {v e : JA4Entry} :
    e ∈ mapGetD (insertEntry m k v) j
      ↔ e ∈ mapGetD m j ∨ (j = k ∧ e = v) := by
  by_cases h : j = k
  · subst h
    unfold mapGetD
    rw [alookup_insertEntry_self]
    simp [mapGetD]
  · unfold mapGetD
    rw [alookup_insertEntry_ne m v h]
    simp [h]

theorem mem_foldl_applyKey (f : JA4Entry → Option String)
    (entries : List JA4Entry) (m : JA4Map) (j : String) (e : JA4Entry) :
    e ∈ mapGetD (entries.foldl (applyKey f) m) j
      ↔ e ∈ mapGetD m j ∨ (e ∈ entries ∧ f e = some j) := by
  induction entries generalizing m with
  | nil => simp
  | cons x xs ih =>
      rw [List.foldl_cons, ih]
      cases hx : f x with
      | none =>
          have hax : applyKey f m x = m := by simp [applyKey, hx]
          rw [hax]
          constructor
          · rintro (hm | ⟨hxs, hfe⟩)
            · exact Or.inl hm
            · exact Or.inr ⟨List.mem_cons_of_mem _ hxs, hfe⟩
          · rintro (hm | ⟨hmem, hfe⟩)
            · exact Or.inl hm
            · rcases List.mem_cons.mp hmem with rfl | hxs
              · rw [hx] at hfe; exact Option.noConfusion hfe
              · exact Or.inr ⟨hxs, hfe⟩
      | some k =>
          have hax : applyKey f m x = insertEntry m k x := by
            simp [applyKey, hx]
          rw [hax, mem_mapGetD_insertEntry]
          constructor
          · rintro ((hm | ⟨rfl, rfl⟩) | ⟨hxs, hfe⟩)
            · exact Or.inl hm
            · exact Or.inr ⟨List.mem_cons_self _ _, hx⟩
            · exact Or.inr ⟨List.mem_cons_of_mem _ hxs, hfe⟩
          · rintro (hm | ⟨hmem, hfe⟩)
            · exact Or.inl (Or.inl hm)
            · rcases List.mem_cons.mp hmem with rfl | hxs
              · rw [hx] at hfe
                exact Or.inl (Or.inr ⟨(Option.some.inj hfe).symm, rfl⟩)
              · exact Or.inr ⟨hxs, hfe⟩

theorem uaKey_eq_some {e : JA4Entry} {u : String} :
    uaKey e = some u ↔ e.user_agent_string = some u ∧ u ≠ "" := by
  unfold uaKey
  cases hs : e.user_agent_string with
  | none => simp
  | some s =>
      by_cases h0 : s = ""
      · subst h0
        simp only [if_pos rfl]
        constructor
        · intro hh; exact Option.noConfusion hh
        · rintro ⟨hh, hne⟩
          exact absurd (Option.some.inj hh).symm hne
      · simp only [if_neg h0]
        constructor
        · intro hh
          obtain rfl := Option.some.inj hh
          exact ⟨rfl, h0⟩
        · rintro ⟨hh, -⟩
          exact hh

theorem appKey_eq_some {e : JA4Entry} {a : String} :
    appKey e = some a ↔ e.application = some a ∧ a ≠ "" := by
  unfold appKey
  cases hs : e.application with
  | none => simp
  | some s =>
      by_cases h0 : s = ""
      · subst h0
        simp only [if_pos rfl]
        constructor
        · intro hh; exact Option.noConfusion hh
        · rintro ⟨hh, hne⟩
          exact absurd (Option.some.inj hh).symm hne
      · simp only [if_neg h0]
        constructor
        · intro hh
          obtain rfl := Option.some.inj hh
          exact ⟨rfl, h0⟩
        · rintro ⟨hh, -⟩
          exact hh

/-- C6 (amended): `from_json` indexes an entry in `ua_to_entries` /
`app_to_entries` exactly when the respective field is present and
non-empty, but in `ja4_to_entries` exactly when `ja4_fingerprint` is
present — with no emptiness guard, so an entry whose fingerprint is
`Some("")` is stored under the empty-string key. -/
theorem from_json_index_characterization (entries : List JA4Entry)
    (e : JA4Entry) (j u a : String) :
    (e ∈ mapGetD (JA4Database.from_json entries).ja4_to_entries j
      ↔ e ∈ entries ∧ e.ja4_fingerprint = some j)
    ∧ (e ∈ mapGetD (JA4Database.from_json entries).ua_to_entries u
      ↔ e ∈ entries ∧ e.user_agent_string = some u ∧ u ≠ "")
    ∧ (e ∈ mapGetD (JA4Database.from_json entries).app_to_entries a
      ↔ e ∈ entries ∧ e.application = some a ∧ a ≠ "") := by
  have h1 : (JA4Database.from_json entries).ja4_to_entries
      = entries.foldl (applyKey ja4Key) [] :=
    foldl_indexStep_fst entries ([], [], [])
  have h2 : (JA4Database.from_json entries).ua_to_entries
      = entries.foldl (applyKey uaKey) [] :=
    foldl_indexStep_ua entries ([], [], [])
  have h3 : (JA4Database.from_json entries).app_to_entries
      = entries.foldl (applyKey appKey) [] :=
    foldl_indexStep_app entries ([], [], [])
  have hnil : ∀ k : String, mapGetD [] k = [] := fun _ => rfl
  refine ⟨?_, ?_, ?_⟩
  · rw [h1, mem_foldl_applyKey, hnil]
    simp [ja4Key]
  · rw [h2, mem_foldl_applyKey, hnil]
    simp only [List.not_mem_nil, false_or]
    exact and_congr_right fun _ => uaKey_eq_some
  · rw [h3, mem_foldl_applyKey, hnil]
    simp only [List.not_mem_nil, false_or]
    exact and_congr_right fun _ => appKey_eq_some

/-- A JA4 database entry whose only populated field is an empty-string
`ja4_fingerprint`. -/
def emptyJa4Entry : JA4Entry :=
  { application := none
    library := none
    device := none
    os := none
    user_agent_string := none
    certificate_authority := none
    observation_count := none
    verified := false
    notes := none
    ja4_fingerprint := some ""
    ja4_fingerprint_string := none
    ja4s_fingerprint := none
    ja4h_fingerprint := none
    ja4x_fingerprint := none
    ja4t_fingerprint := none
    ja4ts_fingerprint := none
    ja4tscan_fingerprint := none }

/-- C6 counterexample: an entry whose `ja4_fingerprint` is the empty string
IS inserted into `ja4_to_entries` (under the key `""`), contradicting the
claim that such an entry is not indexed there. -/
theorem from_json_empty_ja4_indexed_cex :
    emptyJa4Entry ∈
      mapGetD (JA4Database.from_json [emptyJa4Entry]).ja4_to_entries "" := by
  decide

/-! ### Helper lemmas for the profile store -/

theorem alookup_cons {α : Type} (k k' : String) (v : α)
    (tl : List (String × α)) :
    alookup k ((k', v) :: tl) = if k' = k then some v else alookup k tl := rfl

theorem akeys_cons {α : Type} (k : String) (v : α)
    (tl : List (String × α)) :
    akeys ((k, v) :: tl) = k :: akeys tl := rfl

theorem alookup_eq_none_iff {α : Type} {k : String}
    {l : List (String × α)} : alookup k l = none ↔ k ∉ akeys l := by
  induction l with
  | nil => simp [alookup, akeys]
  | cons hd tl ih =>
      obtain ⟨k', v⟩ := hd
      rw [alookup_cons, akeys_cons]
      by_cases h : k' = k
      · subst h
        simp
      · have h' : ¬ k = k' := fun hh => h hh.symm
        rw [if_neg h, ih]
        simp [h']

theorem alookup_mem {α : Type} {k : String} {v : α} :
    ∀ {l : List (String × α)}, alookup k l = some v → (k, v) ∈ l := by
  intro l
  induction l with
  | nil => intro h; exact Option.noConfusion h
  | cons hd tl ih =>
      intro h
      obtain ⟨k', v'⟩ := hd
      rw [alookup_cons] at h
      by_cases hk : k' = k
      · subst hk
        rw [if_pos rfl] at h
        obtain rfl := Option.some.inj h
        exact List.mem_cons_self _ _
      · rw [if_neg hk] at h
        exact List.mem_cons_of_mem _ (ih h)

theorem alookup_ne_none_of_mem {α : Type} {k : String} {v : α}
    {l : List (String × α)} (h : (k, v) ∈ l) : alookup k l ≠ none := by
  intro hn
  rw [alookup_eq_none_iff] at hn
  exact hn (by unfold akeys; exact List.mem_map.mpr ⟨(k, v), h, rfl⟩)

theorem nodupKeys_value_eq {α : Type} :
    ∀ {l : List (String × α)}, NodupKeys l → ∀ {k : String} {a b : α},
      (k, a) ∈ l → (k, b) ∈ l → a = b := by
  intro l
  induction l with
  | nil =>
      intro _ k a b ha _
      exact absurd ha (List.not_mem_nil _)
  | cons hd tl ih =>
      intro hnd k a b ha hb
      obtain ⟨k', v⟩ := hd
      have hpair := List.nodup_cons.mp (by rw [NodupKeys, akeys_cons] at hnd; exact hnd)
      have h1 : k' ∉ akeys tl := hpair.1
      have h2 : NodupKeys tl := hpair.2
      rcases List.mem_cons.mp ha with hha | hha
      · cases hha
        rcases List.mem_cons.mp hb with hhb | hhb
        · cases hhb
          rfl
        · exact absurd
            (show k ∈ akeys tl from List.mem_map.mpr ⟨(k, b), hhb, rfl⟩) h1
      · rcases List.mem_cons.mp hb with hhb | hhb
        · cases hhb
          exact absurd
            (show k ∈ akeys tl from List.mem_map.mpr ⟨(k, a), hha, rfl⟩) h1
        · exact ih h2 hha hhb

theorem alookup_storeUpdate_self (st : Store) (ip : String)
    (f : Profile → Profile) :
    alookup ip (storeUpdate st ip f)
      = some (f ((alookup ip st).getD Profile.default)) := by
  induction st with
  | nil => simp [storeUpdate, alookup]
  | cons hd tl ih =>
      obtain ⟨k, p⟩ := hd
      by_cases h : k = ip <;> simp [storeUpdate, alookup, h, ih]

theorem alookup_storeUpdate_ne (st : Store) (ip : String)
    (f : Profile → Profile) {k : String} (h : k ≠ ip) :
    alookup k (storeUpdate st ip f) = alookup k st := by
  have hik : ¬ ip = k := fun hh => h hh.symm
  induction st with
  | nil => simp [storeUpdate, alookup, hik]
  | cons hd tl ih =>
      obtain ⟨k', p⟩ := hd
      by_cases h1 : k' = ip
      · subst h1
        simp [storeUpdate, alookup, hik]
      · by_cases h2 : k' = k <;>
          simp [storeUpdate, alookup, h1, h2, h, hik, ih]

theorem storeUpdate_length_le (st : Store) (ip : String)
    (f : Profile → Profile) :
    (storeUpdate st ip f).length ≤ st.length + 1 := by
  induction st with
  | nil => simp [storeUpdate]
  | cons hd tl ih =>
      obtain ⟨k, p⟩ := hd
      by_cases h : k = ip
      · simp [storeUpdate, h]
      · simp [storeUpdate, h]
        omega

theorem akeys_storeUpdate (st : Store) (ip : String) (f : Profile → Profile) :
    akeys (storeUpdate st ip f)
      = if ip ∈ akeys st then akeys st else akeys st ++ [ip] := by
  induction st with
  | nil => simp [storeUpdate, akeys]
  | cons hd tl ih =>
      obtain ⟨k, p⟩ := hd
      by_cases h : k = ip
      · subst h
        rw [if_pos (by rw [akeys_cons]; exact List.mem_cons_self _ _)]
        have : storeUpdate ((k, p) :: tl) k f = (k, f p) :: tl := by
          simp [storeUpdate]
        rw [this, akeys_cons, akeys_cons]
      · have hik : ¬ ip = k := fun hh => h hh.symm
        have hcons : storeUpdate ((k, p) :: tl) ip f
            = (k, p) :: storeUpdate tl ip f := by simp [storeUpdate, h]
        rw [hcons, akeys_cons, akeys_cons, ih]
        by_cases h2 : ip ∈ akeys tl
        · rw [if_pos h2, if_pos (List.mem_cons_of_mem _ h2)]
        · rw [if_neg h2, if_neg (by
            intro hmm
            rcases List.mem_cons.mp hmm with hh | hh
            · exact hik hh
            · exact h2 hh)]
          rfl

theorem nodupKeys_storeUpdate {st : Store} (hnd : NodupKeys st)
    (ip : String) (f : Profile → Profile) :
    NodupKeys (storeUpdate st ip f) := by
  unfold NodupKeys
  show (akeys (storeUpdate st ip f)).Nodup
  rw [akeys_storeUpdate]
  by_cases h : ip ∈ akeys st
  · rw [if_pos h]; exact hnd
  · rw [if_neg h]
    rw [List.nodup_append]
    refine ⟨hnd, List.nodup_singleton _, ?_⟩
    intro x hx hx'
    rw [List.mem_singleton] at hx'
    exact h (hx' ▸ hx)

/-- The keys `enforce_profile_limit` removes when over capacity. -/
def evictKeys (st : Store) : List String :=
  (((st.map fun kv => (kv.1, kv.2.last_seen)).insertionSort
      fun a b => a.2 ≤ b.2).take (st.length - MAX_PROFILES)).map Prod.fst

theorem enforce_noop {st : Store} (h : st.length ≤ MAX_PROFILES) :
    enforce_profile_limit st = st := by
  unfold enforce_profile_limit
  rw [if_pos h]

theorem enforce_eq_filter {st : Store} (h : ¬ st.length ≤ MAX_PROFILES) :
    enforce_profile_limit st
      = st.filter fun kv => !(evictKeys st).contains kv.1 := by
  unfold enforce_profile_limit evictKeys
  rw [if_neg h]

theorem alookup_eq_some_of_mem_nodup {α : Type} {l : List (String × α)}
    (hnd : NodupKeys l) {k : String} {v : α} (h : (k, v) ∈ l) :
    alookup k l = some v := by
  cases hl : alookup k l with
  | none => exact absurd hl (alookup_ne_none_of_mem h)
  | some w => rw [nodupKeys_value_eq hnd (alookup_mem hl) h]

instance : IsTotal (String × String) (fun a b => a.2 ≤ b.2) :=
  ⟨fun a b => le_total a.2 b.2⟩

instance : IsTrans (String × String) (fun a b => a.2 ≤ b.2) :=
  ⟨fun _ _ _ h1 h2 => le_trans h1 h2⟩

/-- The `(key, last_seen)` pairs of the store, sorted by `last_seen`
(the intermediate value of `enforce_profile_limit`). -/
def sortedPairs (st : Store) : List (String × String) :=
  (st.map fun kv => (kv.1, kv.2.last_seen)).insertionSort fun a b => a.2 ≤ b.2

theorem sortedPairs_perm (st : Store) :
    List.Perm (sortedPairs st) (st.map fun kv => (kv.1, kv.2.last_seen)) :=
  List.perm_insertionSort _ _

theorem sortedPairs_sorted (st : Store) :
    List.Sorted (fun a b : String × String => a.2 ≤ b.2) (sortedPairs st) :=
  List.sorted_insertionSort _ _

theorem sortedPairs_length (st : Store) :
    (sortedPairs st).length = st.length := by
  rw [(sortedPairs_perm st).length_eq, List.length_map]

theorem sortedPairs_keys_nodup {st : Store} (hnd : NodupKeys st) :
    ((sortedPairs st).map Prod.fst).Nodup := by
  rw [((sortedPairs_perm st).map Prod.fst).nodup_iff, List.map_map]
  exact hnd

theorem mem_sortedPairs_of_mem {st : Store} {k : String} {p : Profile}
    (hkp : (k, p) ∈ st) : (k, p.last_seen) ∈ sortedPairs st := by
  rw [(sortedPairs_perm st).mem_iff]
  exact List.mem_map.mpr ⟨(k, p), hkp, rfl⟩

theorem evictKeys_eq (st : Store) :
    evictKeys st
      = ((sortedPairs st).take (st.length - MAX_PROFILES)).map Prod.fst := rfl

theorem evictKeys_length (st : Store) :
    (evictKeys st).length = st.length - MAX_PROFILES := by
  rw [evictKeys_eq, List.length_map, List.length_take, sortedPairs_length]
  exact Nat.min_eq_left (Nat.sub_le _ _)

theorem evictKeys_nodup {st : Store} (hnd : NodupKeys st) :
    (evictKeys st).Nodup := by
  rw [evictKeys_eq]
  exact List.Nodup.sublist (List.Sublist.map _ (List.take_sublist _ _))
    (sortedPairs_keys_nodup hnd)

theorem evictKeys_sub {st : Store} {x : String} (hx : x ∈ evictKeys st) :
    x ∈ akeys st := by
  rw [evictKeys_eq] at hx
  obtain ⟨⟨k0, s⟩, hk0, rfl⟩ := List.mem_map.mp hx
  have hmem : (k0, s) ∈ sortedPairs st := List.take_subset _ _ hk0
  rw [(sortedPairs_perm st).mem_iff] at hmem
  obtain ⟨kv, hkv, heq⟩ := List.mem_map.mp hmem
  have : kv.1 = k0 := congrArg Prod.fst heq
  exact this ▸ List.mem_map.mpr ⟨kv, hkv, rfl⟩

theorem length_filter_not_add {α : Type} (c : α → Bool) (l : List α) :
    (l.filter fun a => !c a).length + (l.filter c).length = l.length := by
  induction l with
  | nil => rfl
  | cons x xs ih =>
      cases hx : c x
      · simp only [List.filter_cons, hx, Bool.not_false, List.length_cons,
          cond_true, cond_false, if_pos, if_neg]
        simp [hx]
        omega
      · simp [List.filter_cons, hx]
        omega

theorem countP_contains_of_nodup {keys rk : List String}
    (hnd : keys.Nodup) (hrknd : rk.Nodup) (hsub : ∀ x ∈ rk, x ∈ keys) :
    keys.countP (fun x => rk.contains x) = rk.length := by
  rw [List.countP_eq_length_filter]
  have hperm : List.Perm (keys.filter fun x => rk.contains x) rk := by
    rw [List.perm_ext_iff_of_nodup (hnd.filter _) hrknd]
    intro a
    constructor
    · intro ha
      have := List.mem_filter.mp ha
      simpa using this.2
    · intro ha
      exact List.mem_filter.mpr ⟨hsub a ha, by simpa using ha⟩
  exact hperm.length_eq

theorem enforce_length_of_gt {st : Store} (hnd : NodupKeys st)
    (h : MAX_PROFILES < st.length) :
    (enforce_profile_limit st).length = MAX_PROFILES := by
  rw [enforce_eq_filter (not_le.mpr h)]
  have hpart := length_filter_not_add
    (fun kv : String × Profile => (evictKeys st).contains kv.1) st
  have hc : st.countP (fun kv => (evictKeys st).contains kv.1)
      = (evictKeys st).length := by
    have h1 : st.countP (fun kv => (evictKeys st).contains kv.1)
        = (akeys st).countP (fun x => (evictKeys st).contains x) := by
      unfold akeys
      rw [List.countP_map]
      rfl
    rw [h1]
    exact countP_contains_of_nodup hnd (evictKeys_nodup hnd)
      (fun x hx => evictKeys_sub hx)
  have h3 : (st.filter (fun kv => (evictKeys st).contains kv.1)).length
      = st.length - MAX_PROFILES := by
    rw [← List.countP_eq_length_filter, hc, evictKeys_length]
  omega

theorem nodupKeys_enforce {st : Store} (hnd : NodupKeys st) :
    NodupKeys (enforce_profile_limit st) := by
  by_cases h : st.length ≤ MAX_PROFILES
  · rw [enforce_noop h]; exact hnd
  · rw [enforce_eq_filter h]
    show ((st.filter fun kv => !(evictKeys st).contains kv.1).map
      Prod.fst).Nodup
    exact List.Nodup.sublist (List.Sublist.map _ (List.filter_sublist st)) hnd

theorem alookup_enforce {st : Store} (hnd : NodupKeys st) (k : String) :
    alookup k (enforce_profile_limit st) = alookup k st
    ∨ alookup k (enforce_profile_limit st) = none := by
  by_cases h : st.length ≤ MAX_PROFILES
  · rw [enforce_noop h]; exact Or.inl rfl
  · rw [enforce_eq_filter h]
    cases hlk : alookup k (st.filter fun kv => !(evictKeys st).contains kv.1)
      with
    | none => exact Or.inr rfl
    | some v =>
        left
        have hmem : (k, v) ∈ st := (List.mem_filter.mp (alookup_mem hlk)).1
        rw [alookup_eq_some_of_mem_nodup hnd hmem]

theorem enforce_evict_order {st : Store} (hnd : NodupKeys st)
    (hgt : MAX_PROFILES < st.length) {k k' : String} {p p' : Profile}
    (hk : (k, p) ∈ st)
    (hrem : alookup k (enforce_profile_limit st) = none)
    (hk' : (k', p') ∈ enforce_profile_limit st) :
    p.last_seen ≤ p'.last_seen := by
  rw [enforce_eq_filter (not_le.mpr hgt)] at hrem hk'
  have hk'st : (k', p') ∈ st := (List.mem_filter.mp hk').1
  have hk'notin : k' ∉ evictKeys st := by
    have := (List.mem_filter.mp hk').2
    simpa using this
  have hkin : k ∈ evictKeys st := by
    by_contra hcon
    have hmf : (k, p) ∈ st.filter (fun kv => !(evictKeys st).contains kv.1) :=
      List.mem_filter.mpr ⟨hk, by simpa using hcon⟩
    exact alookup_ne_none_of_mem hmf hrem
  have hkpair : (k, p.last_seen) ∈ sortedPairs st := mem_sortedPairs_of_mem hk
  have hk'pair : (k', p'.last_seen) ∈ sortedPairs st :=
    mem_sortedPairs_of_mem hk'st
  rw [evictKeys_eq] at hkin
  obtain ⟨⟨k0, s⟩, hksp, hfst⟩ := List.mem_map.mp hkin
  have hk0 : k0 = k := hfst
  rw [hk0] at hksp
  have hnds : NodupKeys (sortedPairs st) := sortedPairs_keys_nodup hnd
  have hs : s = p.last_seen :=
    nodupKeys_value_eq hnds (List.take_subset _ _ hksp) hkpair
  have hktake : (k, p.last_seen)
      ∈ (sortedPairs st).take (st.length - MAX_PROFILES) := hs ▸ hksp
  have hk'drop : (k', p'.last_seen)
      ∈ (sortedPairs st).drop (st.length - MAX_PROFILES) := by
    have hsplit := List.take_append_drop (st.length - MAX_PROFILES)
      (sortedPairs st)
    have hmm : (k', p'.last_seen)
        ∈ (sortedPairs st).take (st.length - MAX_PROFILES)
          ++ (sortedPairs st).drop (st.length - MAX_PROFILES) := by
      rw [hsplit]; exact hk'pair
    rcases List.mem_append.mp hmm with hmem | hmem
    · exact absurd (evictKeys_eq st ▸
        List.mem_map.mpr ⟨(k', p'.last_seen), hmem, rfl⟩) hk'notin
    · exact hmem
  have hpw : List.Pairwise (fun a b : String × String => a.2 ≤ b.2)
      ((sortedPairs st).take (st.length - MAX_PROFILES)
        ++ (sortedPairs st).drop (st.length - MAX_PROFILES)) := by
    rw [List.take_append_drop]
    exact sortedPairs_sorted st
  exact (List.pairwise_append.mp hpw).2.2 _ hktake _ hk'drop

theorem handler_step_ok {st : Store} (hnd : NodupKeys st)
    (_hlen : st.length ≤ MAX_PROFILES) (ip : String) (f : Profile → Profile) :
    (enforce_profile_limit (storeUpdate st ip f)).length ≤ MAX_PROFILES
    ∧ NodupKeys (enforce_profile_limit (storeUpdate st ip f)) := by
  have hnd1 := nodupKeys_storeUpdate hnd ip f
  constructor
  · by_cases h : (storeUpdate st ip f).length ≤ MAX_PROFILES
    · rw [enforce_noop h]; exact h
    · rw [enforce_length_of_gt hnd1 (not_le.mp h)]
  · exact nodupKeys_enforce hnd1

theorem applyIngest_ok {st : Store} (hnd : NodupKeys st)
    (hlen : st.length ≤ MAX_PROFILES) (op : IngestOp) (now : String) :
    (applyIngest st op now).length ≤ MAX_PROFILES
    ∧ NodupKeys (applyIngest st op now) := by
  cases op with
  | syn d => exact handler_step_ok hnd hlen _ _
  | syn_ack d => exact handler_step_ok hnd hlen _ _
  | mtu d => exact handler_step_ok hnd hlen _ _
  | uptime d => exact handler_step_ok hnd hlen _ _
  | http_request d => exact handler_step_ok hnd hlen _ _
  | http_response d => exact handler_step_ok hnd hlen _ _
  | tls d => exact handler_step_ok hnd hlen _ _

theorem foldl_applyIngest_ok :
    ∀ (ops : List (IngestOp × String)) (st : Store),
      NodupKeys st → st.length ≤ MAX_PROFILES →
      (ops.foldl (fun s step => applyIngest s step.1 step.2) st).length
          ≤ MAX_PROFILES
      ∧ NodupKeys
          (ops.foldl (fun s step => applyIngest s step.1 step.2) st) := by
  intro ops
  induction ops with
  | nil => intro st h1 h2; exact ⟨h2, h1⟩
  | cons x xs ih =>
      intro st h1 h2
      rw [List.foldl_cons]
      have hstep := applyIngest_ok h1 h2 x.1 x.2
      exact ih _ hstep.2 hstep.1

/-- C2: any sequence of ingests from the empty store keeps the profile
count at or below `MAX_PROFILES`; and whenever a store with distinct keys
exceeds the limit, `enforce_profile_limit` brings it back to exactly
`MAX_PROFILES`, only ever removing existing profiles, and never removes a
profile whose `last_seen` is lexicographically greater than that of a kept
profile. -/
theorem assembler_profile_limit :
    (∀ ops : List (IngestOp × String),
        (applyAll ops).length ≤ MAX_PROFILES)
    ∧ ∀ st : Store, NodupKeys st → MAX_PROFILES < st.length →
        (enforce_profile_limit st).length = MAX_PROFILES
        ∧ List.Sublist (enforce_profile_limit st) st
        ∧ ∀ (k : String) (p : Profile) (k' : String) (p' : Profile),
            (k, p) ∈ st →
            alookup k (enforce_profile_limit st) = none →
            (k', p') ∈ enforce_profile_limit st →
            p.last_seen ≤ p'.last_seen := by
  constructor
  · intro ops
    exact (foldl_applyIngest_ok ops [] (by simp [NodupKeys, akeys])
      (by simp [MAX_PROFILES])).1
  · intro st hnd hgt
    refine ⟨enforce_length_of_gt hnd hgt, ?_, ?_⟩
    · rw [enforce_eq_filter (not_le.mpr hgt)]
      exact List.filter_sublist st
    · intro k p k' p' hk hrem hk'
      exact enforce_evict_order hnd hgt hk hrem hk'

/-- A concrete over-capacity store with 101 distinct keys. -/
def bigStore : Store :=
  (List.range 101).map fun i =>
    (toString i, { Profile.default with last_seen := toString i })

/-- Witness for the second conjunct of C2 at a concrete 101-entry store. -/
theorem assembler_profile_limit_witness :
    NodupKeys bigStore ∧ MAX_PROFILES < bigStore.length
    ∧ ((enforce_profile_limit bigStore).length = MAX_PROFILES
        ∧ List.Sublist (enforce_profile_limit bigStore) bigStore
        ∧ ∀ (k : String) (p : Profile) (k' : String) (p' : Profile),
            (k, p) ∈ bigStore →
            alookup k (enforce_profile_limit bigStore) = none →
            (k', p') ∈ enforce_profile_limit bigStore →
            p.last_seen ≤ p'.last_seen) :=
  ⟨by decide, by decide,
    assembler_profile_limit.2 bigStore (by decide) (by decide)⟩

/-- C4: a SYN-ACK or HTTP-response ingest upserts the profile keyed by the
destination IP of the payload; a SYN, MTU, HTTP-request, or TLS ingest upserts
the one keyed by the source IP of the payload; in each case the written
written profile has that key as its `id` and no other key changes. -/
theorem ingest_key_asymmetry :
    (∀ (st : Store) (d : SynAckPacketData) (now : String),
        (∃ p, alookup d.destination.ip (ingest_syn_ack_upsert st d now)
            = some p ∧ p.id = d.destination.ip ∧ p.syn_ack = some d)
        ∧ ∀ k, k ≠ d.destination.ip →
            alookup k (ingest_syn_ack_upsert st d now) = alookup k st)
    ∧ (∀ (st : Store) (d : HttpResponseData) (now : String),
        (∃ p, alookup d.destination.ip (ingest_http_response_upsert st d now)
            = some p ∧ p.id = d.destination.ip ∧ p.http_response = some d)
        ∧ ∀ k, k ≠ d.destination.ip →
            alookup k (ingest_http_response_upsert st d now) = alookup k st)
    ∧ (∀ (st : Store) (d : SynPacketData) (now : String),
        (∃ p, alookup d.source.ip (ingest_syn_upsert st d now)
            = some p ∧ p.id = d.source.ip ∧ p.syn = some d)
        ∧ ∀ k, k ≠ d.source.ip →
            alookup k (ingest_syn_upsert st d now) = alookup k st)
    ∧ (∀ (st : Store) (d : MtuData) (now : String),
        (∃ p, alookup d.source.ip (ingest_mtu_upsert st d now)
            = some p ∧ p.id = d.source.ip ∧ p.mtu = some d)
        ∧ ∀ k, k ≠ d.source.ip →
            alookup k (ingest_mtu_upsert st d now) = alookup k st)
    ∧ (∀ (st : Store) (d : HttpRequestData) (now : String),
        (∃ p, alookup d.source.ip (ingest_http_request_upsert st d now)
            = some p ∧ p.id = d.source.ip ∧ p.http_request = some d)
        ∧ ∀ k, k ≠ d.source.ip →
            alookup k (ingest_http_request_upsert st d now) = alookup k st)
    ∧ (∀ (st : Store) (d : TlsClient) (now : String),
        (∃ p, alookup d.source.ip (ingest_tls_upsert st d now)
            = some p ∧ p.id = d.source.ip ∧ p.tls_client = some d)
        ∧ ∀ k, k ≠ d.source.ip →
            alookup k (ingest_tls_upsert st d now) = alookup k st) := by
  refine ⟨?_, ?_, ?_, ?_, ?_, ?_⟩ <;>
    intro st d now <;>
    exact ⟨⟨_, alookup_storeUpdate_self st _ _, rfl, rfl⟩,
      fun k hk => alookup_storeUpdate_ne st _ _ hk⟩

/-- C7: each ingest upsert writes only its own observation slot, `id` and
`last_seen` of the profile under its key; all the other observation slots
and the `timestamp` field keep the values they had, and
`enforce_profile_limit` only ever removes whole profiles, never altering a
binding of a surviving profile. -/
theorem ingest_frame_effect :
    (∀ (st : Store) (d : SynPacketData) (now : String) (p : Profile),
        alookup d.source.ip st = some p →
        ∃ p', alookup d.source.ip (ingest_syn_upsert st d now) = some p'
          ∧ p'.syn = some d ∧ p'.id = d.source.ip ∧ p'.last_seen = now
          ∧ p'.syn_ack = p.syn_ack ∧ p'.mtu = p.mtu ∧ p'.uptime = p.uptime
          ∧ p'.http_request = p.http_request
          ∧ p'.http_response = p.http_response
          ∧ p'.tls_client = p.tls_client ∧ p'.timestamp = p.timestamp)
    ∧ (∀ (st : Store) (d : SynAckPacketData) (now : String) (p : Profile),
        alookup d.destination.ip st = some p →
        ∃ p', alookup d.destination.ip (ingest_syn_ack_upsert st d now)
            = some p'
          ∧ p'.syn_ack = some d ∧ p'.id = d.destination.ip
          ∧ p'.last_seen = now
          ∧ p'.syn = p.syn ∧ p'.mtu = p.mtu ∧ p'.uptime = p.uptime
          ∧ p'.http_request = p.http_request
          ∧ p'.http_response = p.http_response
          ∧ p'.tls_client = p.tls_client ∧ p'.timestamp = p.timestamp)
    ∧ (∀ (st : Store) (d : MtuData) (now : String) (p : Profile),
        alookup d.source.ip st = some p →
        ∃ p', alookup d.source.ip (ingest_mtu_upsert st d now) = some p'
          ∧ p'.mtu = some d ∧ p'.id = d.source.ip ∧ p'.last_seen = now
          ∧ p'.syn = p.syn ∧ p'.syn_ack = p.syn_ack ∧ p'.uptime = p.uptime
          ∧ p'.http_request = p.http_request
          ∧ p'.http_response = p.http_response
          ∧ p'.tls_client = p.tls_client ∧ p'.timestamp = p.timestamp)
    ∧ (∀ (st : Store) (d : UptimeData) (now : String) (p : Profile),
        alookup d.destination.ip st = some p →
        ∃ p', alookup d.destination.ip (ingest_uptime_upsert st d now)
            = some p'
          ∧ p'.uptime = some d ∧ p'.id = d.destination.ip
          ∧ p'.last_seen = now
          ∧ p'.syn = p.syn ∧ p'.syn_ack = p.syn_ack ∧ p'.mtu = p.mtu
          ∧ p'.http_request = p.http_request
          ∧ p'.http_response = p.http_response
          ∧ p'.tls_client = p.tls_client ∧ p'.timestamp = p.timestamp)
    ∧ (∀ (st : Store) (d : HttpRequestData) (now : String) (p : Profile),
        alookup d.source.ip st = some p →
        ∃ p', alookup d.source.ip (ingest_http_request_upsert st d now)
            = some p'
          ∧ p'.http_request = some d ∧ p'.id = d.source.ip
          ∧ p'.last_seen = now
          ∧ p'.syn = p.syn ∧ p'.syn_ack = p.syn_ack ∧ p'.mtu = p.mtu
          ∧ p'.uptime = p.uptime
          ∧ p'.http_response = p.http_response
          ∧ p'.tls_client = p.tls_client ∧ p'.timestamp = p.timestamp)
    ∧ (∀ (st : Store) (d : HttpResponseData) (now : String) (p : Profile),
        alookup d.destination.ip st = some p →
        ∃ p', alookup d.destination.ip (ingest_http_response_upsert st d now)
            = some p'
          ∧ p'.http_response = some d ∧ p'.id = d.destination.ip
          ∧ p'.last_seen = now
          ∧ p'.syn = p.syn ∧ p'.syn_ack = p.syn_ack ∧ p'.mtu = p.mtu
          ∧ p'.uptime = p.uptime ∧ p'.http_request = p.http_request
          ∧ p'.tls_client = p.tls_client ∧ p'.timestamp = p.timestamp)
    ∧ (∀ (st : Store) (d : TlsClient) (now : String) (p : Profile),
        alookup d.source.ip st = some p →
        ∃ p', alookup d.source.ip (ingest_tls_upsert st d now) = some p'
          ∧ p'.tls_client = some d ∧ p'.id = d.source.ip
          ∧ p'.last_seen = now
          ∧ p'.syn = p.syn ∧ p'.syn_ack = p.syn_ack ∧ p'.mtu = p.mtu
          ∧ p'.uptime = p.uptime ∧ p'.http_request = p.http_request
          ∧ p'.http_response = p.http_response ∧ p'.timestamp = p.timestamp)
    ∧ (∀ st : Store, NodupKeys st → ∀ k : String,
        alookup k (enforce_profile_limit st) = alookup k st
        ∨ alookup k (enforce_profile_limit st) = none) := by
  refine ⟨?_, ?_, ?_, ?_, ?_, ?_, ?_, fun st hnd k => alookup_enforce hnd k⟩
  · intro st d now p hp
    have h := alookup_storeUpdate_self st d.source.ip fun q =>
      { q with id := d.source.ip, syn := some d, last_seen := now }
    rw [hp] at h
    exact ⟨_, h, rfl, rfl, rfl, rfl, rfl, rfl, rfl, rfl, rfl, rfl⟩
  · intro st d now p hp
    have h := alookup_storeUpdate_self st d.destination.ip fun q =>
      { q with id := d.destination.ip, syn_ack := some d, last_seen := now }
    rw [hp] at h
    exact ⟨_, h, rfl, rfl, rfl, rfl, rfl, rfl, rfl, rfl, rfl, rfl⟩
  · intro st d now p hp
    have h := alookup_storeUpdate_self st d.source.ip fun q =>
      { q with id := d.source.ip, mtu := some d, last_seen := now }
    rw [hp] at h
    exact ⟨_, h, rfl, rfl, rfl, rfl, rfl, rfl, rfl, rfl, rfl, rfl⟩
  · intro st d now p hp
    have h := alookup_storeUpdate_self st d.destination.ip fun q =>
      { q with id := d.destination.ip, uptime := some d, last_seen := now }
    rw [hp] at h
    exact ⟨_, h, rfl, rfl, rfl, rfl, rfl, rfl, rfl, rfl, rfl, rfl⟩
  · intro st d now p hp
    have h := alookup_storeUpdate_self st d.source.ip fun q =>
      { q with id := d.source.ip, http_request := some d, last_seen := now }
    rw [hp] at h
    exact ⟨_, h, rfl, rfl, rfl, rfl, rfl, rfl, rfl, rfl, rfl, rfl⟩
  · intro st d now p hp
    have h := alookup_storeUpdate_self st d.destination.ip fun q =>
      { q with id := d.destination.ip, http_response := some d, last_seen := now }
    rw [hp] at h
    exact ⟨_, h, rfl, rfl, rfl, rfl, rfl, rfl, rfl, rfl, rfl, rfl⟩
  · intro st d now p hp
    have h := alookup_storeUpdate_self st d.source.ip fun q =>
      { q with id := d.source.ip, tls_client := some d, last_seen := now }
    rw [hp] at h
    exact ⟨_, h, rfl, rfl, rfl, rfl, rfl, rfl, rfl, rfl, rfl, rfl⟩

/-- A SYN payload whose extracted key (the source IP) is the empty
string. -/
def emptyIpSynPayload : SynPacketData :=
  { source := { ip := "", port := 55555 }
    destination := { ip := "10.0.0.2", port := 80 }
    os_detected := { os := "Linux", quality := 0.9 }
    signature := "4:64+0:0:1460:65535,7:mss,sok,ts,nop,ws:df,id+:0"
    observed :=
      { version := "4"
        initial_ttl := "64"
        options_length := 20
        mss := some 1460
        window_size := "65535"
        window_scale := some 7
        options_layout := "mss,sok,ts,nop,ws"
        quirks := "df,id+"
        payload_class := "0" }
    timestamp := 1 }

/-- C3 counterexample: on the empty store, a SYN ingest whose source IP is
empty is NOT dropped — after the handler a profile keyed by the empty
string exists, contradicting the claim that the store is unchanged. -/
theorem ingest_syn_empty_ip_cex :
    (alookup ""
      (ingest_syn [] emptyIpSynPayload "2024-01-01T00:00:00+00:00")).isSome
      = true := by decide

/-- C3 (amended): a SYN ingest whose extracted source IP is the empty
string is handled like any other key — the profile bound to `""` is
created or updated (with `id := ""`, the SYN slot set and `last_seen`
stamped); nothing is dropped.  (The handler still completes normally, so
the framework still answers 200.)  Stated below capacity so that the
eviction pass is the identity. -/
theorem ingest_syn_empty_ip_upserts (st : Store) (d : SynPacketData)
    (now : String) (hip : d.source.ip = "")
    (hlen : st.length < MAX_PROFILES) :
    alookup "" (ingest_syn st d now)
      = some { (alookup "" st).getD Profile.default with
          id := "", syn := some d, last_seen := now } := by
  have h2 : ingest_syn_upsert st d now = storeUpdate st d.source.ip fun q =>
      { q with id := d.source.ip, syn := some d, last_seen := now } := rfl
  have hle : (ingest_syn_upsert st d now).length ≤ MAX_PROFILES := by
    have h1 := storeUpdate_length_le st d.source.ip fun q =>
      { q with id := d.source.ip, syn := some d, last_seen := now }
    rw [h2]
    omega
  show alookup "" (enforce_profile_limit (ingest_syn_upsert st d now)) = _
  rw [enforce_noop hle, h2, hip]
  exact alookup_storeUpdate_self st "" _

/-- Witness for the amended C3 at the empty store and a concrete empty-IP
payload. -/
theorem ingest_syn_empty_ip_upserts_witness :
    emptyIpSynPayload.source.ip = ""
    ∧ ([] : Store).length < MAX_PROFILES
    ∧ alookup "" (ingest_syn [] emptyIpSynPayload "t0")
        = some { (alookup "" ([] : Store)).getD Profile.default with
            id := "", syn := some emptyIpSynPayload, last_seen := "t0" } :=
  ⟨rfl, by decide,
    ingest_syn_empty_ip_upserts [] emptyIpSynPayload "t0" rfl (by decide)⟩

/-- A verified Chromium database entry with JA4 and User-Agent both set. -/
def chromeEntry : JA4Entry :=
  { application := some "Chromium Browser"
    library := none
    device := none
    os := some "Windows"
    user_agent_string := some "Mozilla/5.0 Chrome/125"
    certificate_authority := none
    observation_count := some 5
    verified := true
    notes := none
    ja4_fingerprint := some "t13d1517h2_8daaf6152771_b0da82dd1658"
    ja4_fingerprint_string := none
    ja4s_fingerprint := none
    ja4h_fingerprint := none
    ja4x_fingerprint := none
    ja4t_fingerprint := none
    ja4ts_fingerprint := none
    ja4tscan_fingerprint := none }

/-- Single-entry database for the exact-match witness. -/
def sampleDb : JA4Database := JA4Database.from_json [chromeEntry]

/-- Witness for C1 at a concrete single-entry database. -/
theorem ja4_validate_exact_match_witness :
    chromeEntry ∈ mapGetD sampleDb.ja4_to_entries
        "t13d1517h2_8daaf6152771_b0da82dd1658"
    ∧ chromeEntry.user_agent_string = some "Mozilla/5.0 Chrome/125"
    ∧ ∃ e', e' ∈ mapGetD sampleDb.ja4_to_entries
          "t13d1517h2_8daaf6152771_b0da82dd1658"
      ∧ e'.user_agent_string = some "Mozilla/5.0 Chrome/125"
      ∧ (sampleDb.validate_consistency "t13d1517h2_8daaf6152771_b0da82dd1658"
          "Mozilla/5.0 Chrome/125").is_consistent = true
      ∧ (sampleDb.validate_consistency "t13d1517h2_8daaf6152771_b0da82dd1658"
          "Mozilla/5.0 Chrome/125").verification_status
          = VerificationStatus.ExactMatch e'.verified e'.observation_count
      ∧ (sampleDb.validate_consistency "t13d1517h2_8daaf6152771_b0da82dd1658"
          "Mozilla/5.0 Chrome/125").confidence
          = (if e'.verified then (0.95 : ℚ) else 0.8)
      ∧ (sampleDb.validate_consistency "t13d1517h2_8daaf6152771_b0da82dd1658"
          "Mozilla/5.0 Chrome/125").anomalies = []
      ∧ (sampleDb.validate_consistency "t13d1517h2_8daaf6152771_b0da82dd1658"
          "Mozilla/5.0 Chrome/125").expected_applications
          = e'.application.toList :=
  ⟨by decide, rfl,
    ja4_validate_exact_match sampleDb "t13d1517h2_8daaf6152771_b0da82dd1658"
      "Mozilla/5.0 Chrome/125" chromeEntry (by decide) rfl⟩

/-- A database entry carrying only a JA4 fingerprint and an application. -/
def ja4OnlyEntry : JA4Entry :=
  { application := some "AppX"
    library := none
    device := none
    os := none
    user_agent_string := none
    certificate_authority := none
    observation_count := none
    verified := false
    notes := none
    ja4_fingerprint := some "j1"
    ja4_fingerprint_string := none
    ja4s_fingerprint := none
    ja4h_fingerprint := none
    ja4x_fingerprint := none
    ja4t_fingerprint := none
    ja4ts_fingerprint := none
    ja4tscan_fingerprint := none }

/-- A database entry carrying only a User-Agent and an application. -/
def uaOnlyEntry : JA4Entry :=
  { application := some "AppX"
    library := none
    device := none
    os := none
    user_agent_string := some "UA-X"
    certificate_authority := none
    observation_count := none
    verified := false
    notes := none
    ja4_fingerprint := none
    ja4_fingerprint_string := none
    ja4s_fingerprint := none
    ja4h_fingerprint := none
    ja4x_fingerprint := none
    ja4t_fingerprint := none
    ja4ts_fingerprint := none
    ja4tscan_fingerprint := none }

/-- Two-entry database where `j1` and `UA-X` are indexed separately. -/
def partialDb : JA4Database :=
  JA4Database.from_json [ja4OnlyEntry, uaOnlyEntry]

/-- Witness for C5 at a concrete two-entry database with both keys indexed
but no exact pair. -/
theorem ja4_validate_partial_both_witness :
    mapGetD partialDb.ja4_to_entries "j1" ≠ []
    ∧ mapGetD partialDb.ua_to_entries "UA-X" ≠ []
    ∧ (∀ e ∈ mapGetD partialDb.ja4_to_entries "j1",
        e.user_agent_string ≠ some "UA-X")
    ∧ ((partialDb.validate_consistency "j1" "UA-X").verification_status
          = VerificationStatus.NoMatch
      ∧ ((∃ app,
            app ∈ (mapGetD partialDb.ja4_to_entries "j1").filterMap
              (fun e => e.application)
            ∧ app ∈ (mapGetD partialDb.ua_to_entries "UA-X").filterMap
              (fun e => e.application)) →
          (partialDb.validate_consistency "j1" "UA-X").is_consistent = true
          ∧ (partialDb.validate_consistency "j1" "UA-X").confidence = 0.7
          ∧ (partialDb.validate_consistency "j1" "UA-X").anomalies = [])
      ∧ ((¬ ∃ app,
            app ∈ (mapGetD partialDb.ja4_to_entries "j1").filterMap
              (fun e => e.application)
            ∧ app ∈ (mapGetD partialDb.ua_to_entries "UA-X").filterMap
              (fun e => e.application)) →
          (partialDb.validate_consistency "j1" "UA-X").is_consistent = false
          ∧ (partialDb.validate_consistency "j1" "UA-X").confidence = 0.2
          ∧ ∃ rest, (partialDb.validate_consistency "j1" "UA-X").anomalies
              = ["Application mismatch:" ++ rest])) :=
  ⟨by decide, by decide, by decide,
    ja4_validate_partial_both partialDb "j1" "UA-X" (by decide) (by decide)
      (by decide)⟩

/-- A concrete TLS payload keyed (via its source IP) to `sampleStore`. -/
def sampleTls : TlsClient :=
  { timestamp := 7
    source := { ip := "1.2.3.4", port := 44444 }
    destination := { ip := "9.8.7.6", port := 443 }
    ja4 := "t13d1516h2_8daaf6152771_02713d6af862"
    ja4_raw := "t13d1516h2_raw"
    ja4_original := "t13d1516h2_orig"
    ja4_original_raw := "t13d1516h2_orig_raw"
    observed :=
      { version := "1.3"
        sni := some "example.com"
        alpn := some "h2"
        cipher_suites := [4865, 4866]
        extensions := [0, 10]
        signature_algorithms := [1027]
        elliptic_curves := [29, 23] } }

/-- A one-profile store holding the key the sample payload targets. -/
def sampleStore : Store := [("1.2.3.4", Profile.default)]

/-- Witness for C7: the TLS conjunct and the eviction-frame conjunct
instantiated at a concrete store. -/
theorem ingest_frame_effect_witness :
    (∃ p', alookup sampleTls.source.ip
        (ingest_tls_upsert sampleStore sampleTls "t7") = some p'
      ∧ p'.tls_client = some sampleTls ∧ p'.id = sampleTls.source.ip
      ∧ p'.last_seen = "t7"
      ∧ p'.syn = Profile.default.syn
      ∧ p'.syn_ack = Profile.default.syn_ack
      ∧ p'.mtu = Profile.default.mtu
      ∧ p'.uptime = Profile.default.uptime
      ∧ p'.http_request = Profile.default.http_request
      ∧ p'.http_response = Profile.default.http_response
      ∧ p'.timestamp = Profile.default.timestamp)
    ∧ (alookup "1.2.3.4" (enforce_profile_limit sampleStore)
          = alookup "1.2.3.4" sampleStore
        ∨ alookup "1.2.3.4" (enforce_profile_limit sampleStore) = none) :=
  ⟨ingest_frame_effect.2.2.2.2.2.2.1 sampleStore sampleTls "t7"
      Profile.default rfl,
    ingest_frame_effect.2.2.2.2.2.2.2 sampleStore (by decide) "1.2.3.4"⟩

/-- Witness for C8 at the concrete single-entry database. -/
theorem exact_match_apps_sound_witness :
    (sampleDb.validate_consistency "t13d1517h2_8daaf6152771_b0da82dd1658"
        "Mozilla/5.0 Chrome/125").verification_status
      = VerificationStatus.ExactMatch true (some 5)
    ∧ ∀ app ∈ (sampleDb.validate_consistency
        "t13d1517h2_8daaf6152771_b0da82dd1658"
        "Mozilla/5.0 Chrome/125").expected_applications,
      ∃ e, e ∈ mapGetD sampleDb.ja4_to_entries
          "t13d1517h2_8daaf6152771_b0da82dd1658"
        ∧ e.application = some app :=
  ⟨by decide,
    exact_match_apps_sound sampleDb "t13d1517h2_8daaf6152771_b0da82dd1658"
      "Mozilla/5.0 Chrome/125" true (some 5) (by decide)⟩
